import Mathlib

/-!
Verification of the dataviz-easy ingestion pipeline.

This file shallowly embeds the TypeScript sources of the repository
(`src/lib/advanced-data-processor.ts`, `src/lib/data-analyzer-new.ts`,
`src/app/api/process-file/route.ts`, `src/app/api/get-chart-data/route.ts`,
`src/unnamed/part_000` and `src/unnamed/part_002`) into Lean and proves or
refutes the frozen claims about them.

Modelling conventions for JavaScript semantics:
* strings are Lean `String`s; JS `trim`, `toLowerCase`, `includes` and the
  regexes used by the code are modelled explicitly below;
* JS numbers are modelled as `ℚ`.  Every numeric value manipulated by the
  embedded code paths is produced by `parseFloat` on decimal text and
  combined by `+`, `/` on small magnitudes, where IEEE doubles behave
  exactly like the rationals denoted by the text, so the `ℚ` model is
  observationally faithful for those paths.  `Infinity` has no `ℚ`
  counterpart; the embedded parsers map the (unreachable at the relevant
  call sites) `Infinity` literal to `none`;
* `Date.parse` is implementation-defined beyond ISO-8601 strings, so the
  column-type detector takes the date-parsing predicate as an explicit
  parameter `d`; a concrete ISO-only instance `jsDateParse` is supplied for
  evaluating the code on concrete inputs.
-/

namespace DataViz

/-! ## JS string primitives -/

/-- Whitespace as matched by JS `trim` / `\s` (the code points that can
actually occur in the cell data: ASCII whitespace, NBSP and BOM). -/
def isJsWs (c : Char) : Bool :=
  c = ' ' || c = '\t' || c = '\n' || c = '\r' ||
  c.toNat = 11 || c.toNat = 12 || c.toNat = 160 || c.toNat = 65279

/-- JS `String.prototype.trim` on a character list. -/
def jsTrimList (cs : List Char) : List Char :=
  ((cs.dropWhile isJsWs).reverse.dropWhile isJsWs).reverse

/-- JS `String.prototype.trim`. -/
def jsTrim (s : String) : String :=
  ⟨jsTrimList s.data⟩

/-- JS `toLowerCase` on one character: ASCII letters plus the Latin-1
letters (covering the Portuguese keywords used by the source). -/
def lowerChar (c : Char) : Char :=
  if 'A' ≤ c ∧ c ≤ 'Z' then Char.ofNat (c.toNat + 32)
  else if 0xC0 ≤ c.toNat ∧ c.toNat ≤ 0xDE ∧ c.toNat ≠ 0xD7 then Char.ofNat (c.toNat + 32)
  else c

/-- JS `String.prototype.toLowerCase`. -/
def lowerStr (s : String) : String :=
  ⟨s.data.map lowerChar⟩

/-- JS `String.prototype.includes`: `sub` occurs contiguously in `s`. -/
def strContains (s sub : String) : Bool :=
  s.data.tails.any (fun t => sub.data.isPrefixOf t)

/-- Replace the first occurrence of a character (JS
`String.prototype.replace` with a one-character string pattern). -/
def replaceFirstOcc (a b : Char) : List Char → List Char
  | [] => []
  | x :: r => if x = a then b :: r else x :: replaceFirstOcc a b r

/-- Remove the first occurrence of a character (JS `replace(c, "")`). -/
def removeFirstOcc (a : Char) : List Char → List Char
  | [] => []
  | x :: r => if x = a then r else x :: removeFirstOcc a r

/-! ## Character classes and digit utilities -/

def isDecDigit (c : Char) : Bool := '0' ≤ c && c ≤ '9'

def isHexDigitCh (c : Char) : Bool :=
  isDecDigit c || ('a' ≤ c && c ≤ 'f') || ('A' ≤ c && c ≤ 'F')

def isOctDigitCh (c : Char) : Bool := '0' ≤ c && c ≤ '7'

def isBinDigitCh (c : Char) : Bool := c = '0' || c = '1'

def spanDigits (cs : List Char) : List Char × List Char := cs.span isDecDigit

def digitsToNat (ds : List Char) : ℕ :=
  ds.foldl (fun a c => a * 10 + (c.toNat - 48)) 0

/-! ## Model of JS `Number(·)` (validity, i.e. the `!isNaN(Number(v))` test)

`Number(s)` is non-NaN iff the trimmed string is empty or is a
StrNumericLiteral: an optionally signed decimal literal or `Infinity`, or
an unsigned hex/octal/binary literal. -/

/-- Exponent part that must consume the whole rest: empty, or
`e`/`E` followed by an optional sign and at least one digit. -/
def expTotal : List Char → Bool
  | [] => true
  | c :: r =>
    (c = 'e' || c = 'E') &&
      (let r2 := match r with
        | s :: t => if s = '+' ∨ s = '-' then t else s :: t
        | [] => []
       let (d, rest) := spanDigits r2
       !d.isEmpty && rest.isEmpty)

/-- Unsigned decimal literal consuming the whole input:
`digits [. digits] [exp]` or `. digits [exp]`. -/
def decLitTotal (cs : List Char) : Bool :=
  let (ip, r1) := spanDigits cs
  if ip.isEmpty then
    match cs with
    | '.' :: rr =>
      let (fp, r2) := spanDigits rr
      !fp.isEmpty && expTotal r2
    | _ => false
  else
    match r1 with
    | '.' :: rr => expTotal (spanDigits rr).2
    | _ => expTotal r1

/-- Unsigned numeric magnitude for `Number(·)`: decimal literal or
`Infinity`. -/
def unsignedNumOk (cs : List Char) : Bool :=
  cs == "Infinity".data || decLitTotal cs

/-- Unsigned non-decimal literals accepted by `Number(·)`:
`0x…`, `0o…`, `0b…`. -/
def nonDecOk : List Char → Bool
  | '0' :: x :: rest =>
    if x = 'x' ∨ x = 'X' then !rest.isEmpty && rest.all isHexDigitCh
    else if x = 'o' ∨ x = 'O' then !rest.isEmpty && rest.all isOctDigitCh
    else if x = 'b' ∨ x = 'B' then !rest.isEmpty && rest.all isBinDigitCh
    else false
  | _ => false

/-- `!isNaN(Number(s))` for a JS string `s`. -/
def jsNumberValid (s : String) : Bool :=
  let t := jsTrimList s.data
  t.isEmpty ||
    (match t with
     | '+' :: r => unsignedNumOk r
     | '-' :: r => unsignedNumOk r
     | _ => unsignedNumOk t || nonDecOk t)

/-! ## Model of JS `parseFloat`

`parseFloat` skips leading whitespace and converts the longest prefix that
is a signed decimal literal, yielding NaN (`none` here) when no such prefix
exists.  The `Infinity` prefix is mapped to `none` as well: the `ℚ` model
has no infinities, and the call sites embedded below only ever pass strings
drawn from digits and separator characters, so that branch is unreachable
for them. -/

/-- Numeric value of the exponent suffix actually consumed by `parseFloat`
(`0` when the rest does not start with a valid exponent part, which
`parseFloat` then simply leaves unconsumed). -/
def expVal (cs : List Char) : ℤ :=
  match cs with
  | c :: r =>
    if c = 'e' ∨ c = 'E' then
      match r with
      | '+' :: r2 => (if (spanDigits r2).1.isEmpty then 0 else (digitsToNat (spanDigits r2).1 : ℤ))
      | '-' :: r2 => (if (spanDigits r2).1.isEmpty then 0 else -(digitsToNat (spanDigits r2).1 : ℤ))
      | _ => (if (spanDigits r).1.isEmpty then 0 else (digitsToNat (spanDigits r).1 : ℤ))
    else 0
  | [] => 0

/-- Longest decimal-literal prefix after the optional sign. -/
def parseFloatMag (cs : List Char) : Option ℚ :=
  if ("Infinity".data).isPrefixOf cs then none
  else
    let (ip, r1) := spanDigits cs
    match r1 with
    | '.' :: rr =>
      let (fp, r2) := spanDigits rr
      if ip.isEmpty ∧ fp.isEmpty then none
      else some (((digitsToNat ip : ℚ) + (digitsToNat fp : ℚ) / 10 ^ fp.length) * 10 ^ expVal r2)
    | _ =>
      if ip.isEmpty then none
      else some ((digitsToNat ip : ℚ) * 10 ^ expVal r1)

/-- JS `parseFloat`, with NaN as `none`. -/
def jsParseFloat (s : String) : Option ℚ :=
  match s.data.dropWhile isJsWs with
  | '+' :: r => parseFloatMag r
  | '-' :: r => (parseFloatMag r).map (fun q => -q)
  | cs => parseFloatMag cs

/-! ## Model of JS `Number.prototype.toString`

The doubles converted to strings by the embedded code are exactly the
`parseFloat` results of short decimal strings, for which the shortest
round-trip decimal printed by JS is the terminating decimal expansion of
the denoted rational.  The fallback branch for non-terminating rationals is
unreachable from those call sites. -/

/-- Decimal string of a nonnegative rational with terminating decimal
expansion (fallback: digits of numerator and denominator, unreachable from
the embedded call sites). -/
def nonnegToString (q : ℚ) : String :=
  let n := q.num.toNat
  let d := q.den
  if d = 1 then toString n
  else
    match (List.range' 1 40).find? (fun k => (n * 10 ^ k) % d == 0) with
    | some k =>
      let s0 := toString (n * 10 ^ k / d)
      let s : String := ⟨List.replicate (k + 1 - s0.length) '0' ++ s0.data⟩
      s.take (s.length - k) ++ "." ++ s.drop (s.length - k)
    | none => toString n ++ "/" ++ toString d
/-- JS `Number.prototype.toString` on the doubles arising in the embedded
code (terminating decimals of modest size). -/
def numToString (q : ℚ) : String :=
  if q < 0 then "-" ++ nonnegToString (-q) else nonnegToString q

/-! ## Regex models used by the source -/

/-- Body characters of the currency pattern: `[\d,.-]`. -/
def isCurrencyBodyChar (c : Char) : Bool :=
  isDecDigit c || c = ',' || c = '.' || c = '-'

/-- `/^R\$\s*[\d,.-]+$/.test s` — the currency pattern of the source. -/
def currencyMatch (s : String) : Bool :=
  match s.data with
  | 'R' :: '$' :: r =>
    let r2 := r.dropWhile isJsWs
    !r2.isEmpty && r2.all isCurrencyBodyChar
  | _ => false

/-- `/^\+?\d+%$/.test s` — the trailing-percent pattern of the source. -/
def percentMatch (s : String) : Bool :=
  let cs := match s.data with
    | '+' :: r => r
    | r => r
  let (d, rest) := spanDigits cs
  !d.isEmpty && rest == ['%']

/-- `/\d/.test s`. -/
def containsDigit (s : String) : Bool := s.data.any isDecDigit

/-- Modelled from the spec: `Date.parse` succeeding — ECMA-262 only pins
down ISO-8601 date strings, so this concrete oracle recognises the ISO
`YYYY-MM-DD` dates used by the spec's test vectors and nothing else.
The embedded detectors take the oracle as a parameter wherever the result
could depend on engine-specific parsing. -/
def jsDateParse (s : String) : Bool :=
  match s.data with
  | [y1, y2, y3, y4, '-', m1, m2, '-', d1, d2] =>
    [y1, y2, y3, y4, m1, m2, d1, d2].all isDecDigit &&
      (1 ≤ digitsToNat [m1, m2] && digitsToNat [m1, m2] ≤ 12) &&
      (1 ≤ digitsToNat [d1, d2] && digitsToNat [d1, d2] ≤ 31)
  | _ => false

/-! ## Embedding of `src/lib/advanced-data-processor.ts` -/

/-- The structural classifications (`fileType` in the source). -/
inductive FileType
  | simple_table
  | budget_layout
  | expense_report
  | complex_structure
deriving DecidableEq, Repr

/-- A named sub-table (`extractedSections` entries). -/
structure SectionData where
  name : String
  headers : List String
  rows : List (List String)
deriving DecidableEq, Repr

/-- Result of `analyzeComplexStructure`. -/
structure AnalysisResult where
  headers : List String
  dataRows : List (List String)
  dataStartRow : ℕ
  fileType : FileType
  extractedSections : Option (List SectionData)
deriving DecidableEq, Repr

/-- Result of `findDataTable`. -/
structure DTResult where
  headers : List String
  headerRow : ℕ
  dataStartRow : ℕ
deriving DecidableEq, Repr

/-- `cell && cell.toString().trim() !== ''` — the non-blank-cell test the
source uses in its row filters. -/
def cellNonBlank (c : String) : Bool := c != "" && jsTrim c != ""

/-- `isNumericValue`: currency-formatted, or numeric after replacing each
of `, . -` by `.`, with at least one digit. -/
def isNumericValue (cell : String) : Bool :=
  let str := jsTrim cell
  if str = "" then false
  else if currencyMatch str then true
  else
    let num : String := ⟨str.data.map (fun c => if c = ',' ∨ c = '.' ∨ c = '-' then '.' else c)⟩
    jsNumberValid num && containsDigit str

/-- `isMonetaryValue`: the `R$`-currency pattern on the trimmed cell. -/
def isMonetaryValue (cell : String) : Bool :=
  cell != "" && currencyMatch (jsTrim cell)

/-- The domain keyword list of `isValidHeaderRow`. -/
def headerKeywords : List String :=
  ["data", "categoria", "descrição", "valor", "observações", "nome", "código",
   "quantidade", "preço", "total", "departamento", "funcionário", "cliente"]

/-- `findLastNonEmptyColumn`: index of the last non-blank cell, `0` when
every cell is blank. -/
def findLastNonEmptyColumn (row : List String) : ℕ :=
  match (row.enum.filter (fun p => cellNonBlank p.2)).getLast? with
  | some p => p.1
  | none => 0

/-- Header cleanup used by `findDataTable` (and the generic scan): trim,
with `Column_N` for blank cells. -/
def mkCleanHeaders (row : List String) : List String :=
  row.enum.map (fun p =>
    let ch := jsTrim p.2
    if ch = "" then "Column_" ++ toString (p.1 + 1) else ch)

/-- The score accumulation of `isValidHeaderRow`: +2 for a keyword cell,
then +1 for a non-empty short non-numeric cell (both can fire). -/
def scoreStep (s : ℕ) (cell : String) : ℕ :=
  let s1 := if cell != "" && headerKeywords.any (fun k => strContains cell k) then s + 2 else s
  if cell != "" && decide (cell.length < 30) && !(isNumericValue cell) then s1 + 1 else s1

/-- `isValidHeaderRow`: score the row on its lowercased trimmed cells;
qualify when the score is at least 3, the row is not among the last two
rows, and one of the next 3 rows has a numeric cell. -/
def isValidHeaderRow (row : List String) (rowIndex : ℕ) (allRows : List (List String)) : Bool :=
  let cellsText := row.map (fun c => jsTrim (lowerStr c))
  let score := cellsText.foldl scoreStep 0
  if score ≥ 3 ∧ rowIndex + 2 < allRows.length then
    ((allRows.drop (rowIndex + 1)).take 3).any (fun nextRow => nextRow.any (fun c => isNumericValue c))
  else false

/-- `findDataTable`: the source's for-loop over the first 25 rows with
`continue` on rows of fewer than 3 cells is exactly the first index
passing both checks. -/
def findDataTable (rows : List (List String)) : Option DTResult :=
  match (List.range (min 25 rows.length)).find?
      (fun i => decide (3 ≤ (rows.getD i []).length) && isValidHeaderRow (rows.getD i []) i rows) with
  | some i =>
    let ch := mkCleanHeaders (rows.getD i [])
    some { headers := ch.take (findLastNonEmptyColumn ch + 1), headerRow := i, dataStartRow := i + 1 }
  | none => none

/-! ### Budget-layout extraction -/

/-- `isValidBudgetCategory`'s skip keywords. -/
def skipKeywords : List String :=
  ["primeiros passos", "observação", "saldo inicial", "orçamento mensal", "totais"]

def isValidBudgetCategory (category : String) : Bool :=
  category != "" && !(skipKeywords.any (fun k => strContains (lowerStr category) k))

/-- Currency cell to canonical number string: strip `R`, `$` and spaces,
turn the first comma into a dot, `parseFloat`, `"0"` on NaN. -/
def cleanCurrencyNum (cell : String) : String :=
  let s : String := ⟨replaceFirstOcc ',' '.' (cell.data.filter (fun c => !(c = 'R' || c = '$' || isJsWs c)))⟩
  match jsParseFloat s with
  | none => "0"
  | some q => numToString q

/-- `extractBudgetRow`: category plus up to three monetary values padded
with `"0"`. -/
def extractBudgetRow (row : List String) : Option (List String) :=
  if row.length < 3 then none
  else
    let category := jsTrim (row.headD "")
    if !(isValidBudgetCategory category) then none
    else
      let step := fun (st : List String × Bool) (cell0 : String) =>
        let cell := jsTrim cell0
        if currencyMatch cell then (st.1 ++ [cleanCurrencyNum cell], true)
        else if st.2 && decide (st.1.length < 3) then (st.1 ++ ["0"], st.2)
        else st
      let r := row.tail.foldl step ([], false)
      if category != "" && r.2 && !r.1.isEmpty then
        some (category :: (r.1 ++ List.replicate (3 - r.1.length) "0").take 3)
      else none

/-! ### Cell normalization and row cleaning -/

/-- The per-cell normalizer inlined in `cleanDataRows`: trim; currency
cells are re-emitted via `parseFloat` (`"0"` on NaN); a trailing-percent
cell loses its `%`; anything else is returned trimmed. -/
def cleanCell (cell : String) : String :=
  let c := jsTrim cell
  if currencyMatch c then cleanCurrencyNum c
  else if percentMatch c then ⟨removeFirstOcc '%' c.data⟩
  else c

/-- `cleanDataRows`: drop blank rows, prefer the budget-row extraction,
otherwise normalize and pad/truncate to the expected column count and keep
only rows with some non-empty cell. -/
def cleanDataRows (rows : List (List String)) (expectedColumnCount : ℕ) : List (List String) :=
  match rows with
  | [] => []
  | row :: rest =>
    if !(row.any (fun c => jsTrim c != "")) then cleanDataRows rest expectedColumnCount
    else
      match extractBudgetRow row with
      | some budgetData => budgetData :: cleanDataRows rest expectedColumnCount
      | none =>
        let cleanedRow := (List.range expectedColumnCount).map (fun j =>
          let cell := row.getD j ""
          if cell = "" then "" else cleanCell cell)
        if cleanedRow.any (fun c => c != "") then cleanedRow :: cleanDataRows rest expectedColumnCount
        else cleanDataRows rest expectedColumnCount

/-! ### Structural analyzers -/

/-- Keyword triggering `analyzeBudgetStructure`. -/
def budgetKeywords : List String := ["orçamento", "despesas", "renda", "planejado", "real"]

/-- Keyword triggering `analyzeExpenseReport`. -/
def expenseKeywords : List String := ["relatório", "despesas", "data", "categoria", "valor"]

/-- `rows.some(row => row.some(cell => keywords.some(k => cell.toLowerCase().includes(k))))`. -/
def hasKeywordAnywhere (keywords : List String) (rows : List (List String)) : Bool :=
  rows.any (fun row => row.any (fun cell => keywords.any (fun k => strContains (lowerStr cell) k)))

def budgetHeaders : List String := ["Categoria", "Planejado", "Real", "Diferença"]

/-- Loop body of `extractBudgetSection` (the `break` on `totais` makes
this a recursion with an in-section flag and accumulated data). -/
def extractBudgetSectionGo (sectionType : String) :
    List (List String) → Bool → List (List String) → List (List String)
  | [], _, data => data
  | row :: rest, inSection, data =>
    let rowText := lowerStr (String.intercalate " " row)
    if strContains rowText sectionType &&
        (strContains rowText "planejado" || strContains rowText "real") then
      extractBudgetSectionGo sectionType rest true data
    else if inSection then
      let data2 := match extractBudgetRow row with
        | some b => data ++ [b]
        | none => data
      if strContains rowText "totais" && decide (0 < data2.length) then data2
      else extractBudgetSectionGo sectionType rest inSection data2
    else extractBudgetSectionGo sectionType rest inSection data

def extractBudgetSection (rows : List (List String)) (sectionType : String) :
    Option (List (List String)) :=
  let data := extractBudgetSectionGo sectionType rows false []
  if 0 < data.length then some data else none

/-- `analyzeBudgetStructure`: triggered by any budget keyword anywhere;
extracts the `despesas` and `renda` sections. -/
def analyzeBudgetStructure (rows : List (List String)) : Option AnalysisResult :=
  if !(hasKeywordAnywhere budgetKeywords rows) then none
  else
    let expensesData := extractBudgetSection rows "despesas"
    let incomeData := extractBudgetSection rows "renda"
    let sections :=
      (match expensesData with
       | some e => [⟨"Despesas", budgetHeaders, e⟩]
       | none => []) ++
      (match incomeData with
       | some i => [⟨"Renda", budgetHeaders, i⟩]
       | none => [])
    some { headers := budgetHeaders,
           dataRows := expensesData.getD [] ++ incomeData.getD [],
           dataStartRow := 0,
           fileType := .budget_layout,
           extractedSections := some sections }

/-- `analyzeExpenseReport`: triggered by any expense keyword anywhere,
then reruns `findDataTable` and wraps the result as "Transações". -/
def analyzeExpenseReport (rows : List (List String)) : Option AnalysisResult :=
  if !(hasKeywordAnywhere expenseKeywords rows) then none
  else
    match findDataTable rows with
    | some t =>
      let dataRows := ((rows.drop t.dataStartRow).filter
          (fun row => row.any cellNonBlank)).map (fun row => row.map jsTrim)
      some { headers := t.headers,
             dataRows := dataRows,
             dataStartRow := t.dataStartRow,
             fileType := .expense_report,
             extractedSections := some [⟨"Transações", t.headers, dataRows⟩] }
    | none => none

/-- `analyzeSimpleTable`: standalone data-table detection. -/
def analyzeSimpleTable (rows : List (List String)) : Option AnalysisResult :=
  match findDataTable rows with
  | some t =>
    some { headers := t.headers,
           dataRows := (rows.drop t.dataStartRow).filter (fun row => row.any cellNonBlank),
           dataStartRow := t.dataStartRow,
           fileType := .simple_table,
           extractedSections := none }
  | none => none

/-- `extractMeaningfulData`: the trimmed non-blank cells, when at least
two remain. -/
def extractMeaningfulData (row : List String) : Option (List String) :=
  let meaningful := (row.filter cellNonBlank).map jsTrim
  if 2 ≤ meaningful.length then some meaningful else none

/-- `analyzeComplexMultiSection`: every row with meaningful data becomes a
one-row section with positional `Campo_N` names. -/
def analyzeComplexMultiSection (rows : List (List String)) : AnalysisResult :=
  let st := rows.foldl
    (fun (st : List (List String) × List SectionData × ℕ) row =>
      if !(row.any cellNonBlank) then st
      else
        match extractMeaningfulData row with
        | some er =>
          if 0 < er.length then
            (st.1 ++ [er],
             st.2.1 ++ [⟨"Seção " ++ toString st.2.2,
                         er.enum.map (fun p => "Campo_" ++ toString (p.1 + 1)), [er]⟩],
             st.2.2 + 1)
          else st
        | none => st)
    ([], [], 1)
  { headers := ["Campo_1", "Campo_2", "Campo_3", "Campo_4"],
    dataRows := st.1,
    dataStartRow := 0,
    fileType := .complex_structure,
    extractedSections := some st.2.1 }

/-- `analyzeComplexStructure`: budget, then expense report, then simple
table, then the complex multi-section fallback. -/
def analyzeComplexStructure (rows : List (List String)) : AnalysisResult :=
  match analyzeBudgetStructure rows with
  | some r => r
  | none =>
    match analyzeExpenseReport rows with
    | some r => r
    | none =>
      match analyzeSimpleTable rows with
      | some r => r
      | none => analyzeComplexMultiSection rows

/-- The extractor output consumed by the rest of the pipeline
(the used fields of `ParsedData`). -/
structure ParsedTable where
  headers : List String
  rows : List (List String)
  dataStartRow : ℕ
  fileType : FileType
  extractedSections : Option (List SectionData)
deriving DecidableEq, Repr

/-- The shared tail of `processCSVFile` / `processExcelFile`: structural
analysis followed by row cleaning. -/
def processRawTable (rawRows : List (List String)) : ParsedTable :=
  let a := analyzeComplexStructure rawRows
  { headers := a.headers,
    rows := cleanDataRows a.dataRows a.headers.length,
    dataStartRow := a.dataStartRow,
    fileType := a.fileType,
    extractedSections := a.extractedSections }

/-! ## Embedding of the column-type detectors -/

/-- Column types. -/
inductive ColType
  | string
  | number
  | date
  | boolean
deriving DecidableEq, Repr

/-- `values.filter(v => v && v.trim() !== "")`. -/
def nonEmptyVals (values : List String) : List String :=
  values.filter (fun v => v != "" && jsTrim v != "")

/-- `v.replace(/[R$\s,]/g, '.')` — each matching character becomes a dot. -/
def replaceCurrencyPunct (v : String) : String :=
  ⟨v.data.map (fun c => if c = 'R' ∨ c = '$' ∨ isJsWs c ∨ c = ',' then '.' else c)⟩

/-- `/^(true|false|sim|não|yes|no|1|0)$/i.test(v.trim())`. -/
def boolTokenMatch (v : String) : Bool :=
  ["true", "false", "sim", "não", "yes", "no", "1", "0"].contains (lowerStr (jsTrim v))

/-- `detectColumnType` of `src/unnamed/part_000` (the currency-aware
detector), parametrized by the `Date.parse` oracle `d`. -/
def detectColumnType (d : String → Bool) (values : List String) : ColType :=
  let nonEmptyValues := nonEmptyVals values
  if nonEmptyValues.isEmpty then .string
  else
    let currencyCount := (nonEmptyValues.filter (fun v => currencyMatch (jsTrim v))).length
    let numberCount := (nonEmptyValues.filter (fun v => jsNumberValid (replaceCurrencyPunct v))).length
    if numberCount = nonEmptyValues.length ∨
        ((currencyCount : ℚ) > (nonEmptyValues.length : ℚ) * 0.8) then .number
    else
      let dateCount := (nonEmptyValues.filter (fun v => d v && containsDigit v)).length
      if dateCount = nonEmptyValues.length then .date
      else
        let booleanCount := (nonEmptyValues.filter boolTokenMatch).length
        if booleanCount = nonEmptyValues.length then .boolean
        else .string

/-- Written from the spec's wording of the type-inference rules (with the
currency threshold amended to *strictly more than* 80%): first satisfied
check wins — all-blank → string; number when every non-empty value is
numeric after currency-punctuation replacement or the currency matches
exceed 80%; date when every value date-parses and has a digit; boolean
when every value is a recognized token; else string. -/
def specDetectColumnType (d : String → Bool) (values : List String) : ColType :=
  let ne := values.filter (fun v => v != "" && jsTrim v != "")
  if ne.isEmpty then .string
  else if ne.all (fun v => jsNumberValid (replaceCurrencyPunct v)) ∨
      (((ne.filter (fun v => currencyMatch (jsTrim v))).length : ℚ) > (ne.length : ℚ) * 0.8) then
    .number
  else if ne.all (fun v => d v && containsDigit v) then .date
  else if ne.all boolTokenMatch then .boolean
  else .string

/-- `detectColumnType` of `src/app/api/process-file/route.ts` (the simple
detector used by the dev process-file route). -/
def detectColumnTypeSimple (d : String → Bool) (values : List String) : ColType :=
  let ne := nonEmptyVals values
  if ne.isEmpty then .string
  else if (ne.filter (fun v => jsNumberValid v)).length = ne.length then .number
  else if (ne.filter d).length = ne.length then .date
  else if (ne.filter (fun v =>
      lowerStr v == "true" || lowerStr v == "false" || v == "1" || v == "0")).length = ne.length then
    .boolean
  else .string

/-! ## Embedding of `src/app/api/process-file/route.ts` -/

/-- The per-line CSV state machine of the dev process-file route: a quote
opens after start-of-line or a comma, closes before end-of-line or a
comma; cells are trimmed when pushed. -/
def csvGo : List Char → Option Char → Bool → List Char → List String → List String
  | [], _, _, cur, acc => acc ++ [jsTrim ⟨cur.reverse⟩]
  | c :: rest, prev, inQ, cur, acc =>
    if c = '"' ∧ (prev = none ∨ prev = some ',') then
      csvGo rest (some c) true cur acc
    else if c = '"' ∧ inQ ∧ (rest.isEmpty ∨ rest.head? = some ',') then
      csvGo rest (some c) false cur acc
    else if c = ',' ∧ ¬inQ then
      csvGo rest (some c) inQ [] (acc ++ [jsTrim ⟨cur.reverse⟩])
    else
      csvGo rest (some c) inQ (c :: cur) acc

def parseCSVLineSimple (line : String) : List String :=
  csvGo line.data none false [] []

/-- JS `String.prototype.split` with a one-character separator
(`"".split(sep)` is `[""]`, and a trailing separator yields a trailing
empty string, as in JS). -/
def splitOnChar (sep : Char) : List Char → List (List Char)
  | [] => [[]]
  | c :: rest =>
    match splitOnChar sep rest with
    | [] => [[c]]
    | h :: t => if c = sep then [] :: h :: t else (c :: h) :: t

/-- `csvText.split("\n")`. -/
def jsSplitLines (s : String) : List String :=
  (splitOnChar '\n' s.data).map (fun cs => ⟨cs⟩)

/-- `parseCSV` of the dev process-file route: split on newlines, skip
blank lines, run the line machine. -/
def parseCSV (csvText : String) : List (List String) :=
  ((jsSplitLines csvText).filter (fun l => jsTrim l != "")).map parseCSVLineSimple

structure FileMeta where
  id : String
  filename : String
  original_name : String
  file_size : ℕ
  mime_type : String
  status : String
  upload_date : String
deriving DecidableEq, Repr

structure ColumnRec where
  file_id : String
  column_name : String
  column_type : ColType
  sample_values : List String
deriving DecidableEq, Repr

/-- A stored data row: `data` is the JS row object (`null` as `none`). -/
structure RowRec where
  file_id : String
  row_index : ℕ
  data : List (String × Option String)
deriving DecidableEq, Repr

structure FileEntry where
  metadata : FileMeta
  columns : List ColumnRec
  rows : List RowRec
deriving DecidableEq, Repr

structure ProcessReq where
  fileId : String
  filename : String
  content : String
  mimeType : String
  size : ℕ
deriving DecidableEq, Repr

structure ProcessResp where
  fileId : String
  rowCount : ℕ
  columnCount : ℕ
deriving DecidableEq, Repr

/-- JS `Map.prototype.set` on an association list: replace in place or
append at the end. -/
def mapSet {β : Type} (m : List (String × β)) (k : String) (v : β) : List (String × β) :=
  match m with
  | [] => [(k, v)]
  | (k0, v0) :: rest => if k0 = k then (k, v) :: rest else (k0, v0) :: mapSet rest k v

/-- The POST handler of the dev process-file route: parse, throw
`"No data found in file"` on zero rows (surfaced as the error response,
leaving the store untouched), otherwise analyze and store the entry.
`d` is the `Date.parse` oracle and `now` the request timestamp. -/
def processFilePost (d : String → Bool) (now : String) (req : ProcessReq)
    (store : List (String × FileEntry)) :
    Except String ProcessResp × List (String × FileEntry) :=
  let rows :=
    if req.mimeType = "text/csv" ∨ req.filename.endsWith ".csv" then parseCSV req.content
    else parseCSV req.content
  if rows.length = 0 then (.error "No data found in file", store)
  else
    let headers := rows.headD []
    let dataRows := rows.tail
    let columnData := headers.enum.map (fun p =>
      let columnValues := dataRows.map (fun row => row.getD p.1 "")
      { file_id := req.fileId
        column_name := p.2
        column_type := detectColumnTypeSimple d columnValues
        sample_values := (columnValues.take 5).filter (fun v => v != "" && jsTrim v != "")
        : ColumnRec })
    let rowData := dataRows.enum.map (fun p =>
      { file_id := req.fileId
        row_index := p.1
        data := headers.enum.map (fun q =>
          let v := p.2.getD q.1 ""
          (q.2, if v = "" then none else some v))
        : RowRec })
    let entry : FileEntry :=
      { metadata :=
          { id := req.fileId, filename := req.fileId, original_name := req.filename
            file_size := req.size, mime_type := req.mimeType, status := "completed"
            upload_date := now }
        columns := columnData
        rows := rowData }
    (.ok { fileId := req.fileId, rowCount := dataRows.length, columnCount := headers.length },
     mapSet store req.fileId entry)

/-! ## Embedding of `src/app/api/get-chart-data/route.ts` -/

/-- A chart-data row object (`row.data`). -/
def ChartRow : Type := List (String × Option String)

instance : DecidableEq ChartRow := by
  unfold ChartRow
  infer_instance

/-- JS property access on a row object: absent and `null` collapse to
`none`. -/
def jsGet (row : ChartRow) (k : String) : Option String :=
  match List.lookup k row with
  | some v => v
  | none => none

/-- JS truthiness of a string-or-nullish value. -/
def jsTruthy : Option String → Bool
  | none => false
  | some s => s != ""

/-- `parseFloat(x) || 0`. -/
def parsedNum (v : Option String) : ℚ :=
  match v with
  | none => 0
  | some s => (jsParseFloat s).getD 0

structure PiePoint where
  name : String
  value : ℚ
deriving DecidableEq, Repr

/-- Bar point `{name, value, [yColumn]: value}` — the computed key is kept
as the `ycolName`/`yval` pair. -/
structure BarPoint where
  name : String
  value : ℚ
  ycolName : String
  yval : ℚ
deriving DecidableEq, Repr

structure LinePoint where
  name : Option String
  value : ℚ
  xcolName : String
  xval : Option String
  ycolName : String
  yval : ℚ
deriving DecidableEq, Repr

structure ScatterPoint where
  x : ℚ
  y : ℚ
  xcolName : String
  xval : ℚ
  ycolName : String
  yval : ℚ
deriving DecidableEq, Repr

inductive ChartPoint
  | pie (p : PiePoint)
  | bar (p : BarPoint)
  | line (p : LinePoint)
  | scatter (p : ScatterPoint)
deriving DecidableEq, Repr

/-- `counts[value] = (counts[value] || 0) + 1` on an insertion-ordered
association list (the chart keys exercised here are not array indices, so
JS object enumeration order is insertion order). -/
def bumpCount (counts : List (String × ℕ)) (k : String) : List (String × ℕ) :=
  match counts with
  | [] => [(k, 1)]
  | (k0, c) :: rest => if k0 = k then (k0, c + 1) :: rest else (k0, c) :: bumpCount rest k

/-- The pie (and default) branch: count occurrences of each truthy
`xColumn` value. -/
def pieChartData (dataRows : List ChartRow) (xColumn : String) : List PiePoint :=
  let counts := dataRows.foldl (fun cs row =>
    let value := jsGet row xColumn
    if jsTruthy value then bumpCount cs (value.getD "") else cs) []
  counts.map (fun p => { name := p.1, value := (p.2 : ℚ) })

/-- `groups[x].push(y)` on an insertion-ordered association list. -/
def pushGroup (groups : List (String × List ℚ)) (k : String) (v : ℚ) :
    List (String × List ℚ) :=
  match groups with
  | [] => [(k, [v])]
  | (k0, l) :: rest => if k0 = k then (k0, l ++ [v]) :: rest else (k0, l) :: pushGroup rest k v

/-- The aggregation of the bar branch: `sum`, `avg`, anything else counts. -/
def aggValue (aggregateFunction : String) (values : List ℚ) : ℚ :=
  if aggregateFunction = "sum" then values.sum
  else if aggregateFunction = "avg" then values.sum / (values.length : ℚ)
  else (values.length : ℚ)

/-- The loop body of the bar grouping: push the parsed `yColumn` value
onto the group of the truthy `xColumn` value. -/
def barStep (x y : String) (gs : List (String × List ℚ)) (row : ChartRow) :
    List (String × List ℚ) :=
  let xv := jsGet row x
  let yv := parsedNum (jsGet row y)
  if jsTruthy xv then pushGroup gs (xv.getD "") yv else gs

/-- The grouped y-values built by the bar branch. -/
def barGroups (dataRows : List ChartRow) (x y : String) : List (String × List ℚ) :=
  dataRows.foldl (barStep x y) []

/-- The bar-with-yColumn branch: group rows by truthy `xColumn` value,
parse `yColumn` as float (non-numeric → 0) and aggregate. -/
def barChartData (dataRows : List ChartRow) (xColumn yColumn : String)
    (aggregateFunction : String) : List BarPoint :=
  (barGroups dataRows xColumn yColumn).map (fun p =>
    { name := p.1
      value := aggValue aggregateFunction p.2
      ycolName := yColumn
      yval := aggValue aggregateFunction p.2 })

/-- The line-with-yColumn branch: one point per row in order. -/
def lineChartData (dataRows : List ChartRow) (xColumn yColumn : String) : List LinePoint :=
  dataRows.map (fun row =>
    { name := jsGet row xColumn
      value := parsedNum (jsGet row yColumn)
      xcolName := xColumn
      xval := jsGet row xColumn
      ycolName := yColumn
      yval := parsedNum (jsGet row yColumn) })

/-- The scatter-with-yColumn branch: one point per row. -/
def scatterChartData (dataRows : List ChartRow) (xColumn yColumn : String) : List ScatterPoint :=
  dataRows.map (fun row =>
    { x := parsedNum (jsGet row xColumn)
      y := parsedNum (jsGet row yColumn)
      xcolName := xColumn
      xval := parsedNum (jsGet row xColumn)
      ycolName := yColumn
      yval := parsedNum (jsGet row yColumn) })

/-- The chart-data dispatch of the live get-chart-data route
(`route.ts`); note the handler applies no point cap to `chartData`. -/
def routeChartData (chartType xColumn : String) (yColumn : Option String)
    (aggregateFunction : String) (dataRows : List ChartRow) : List ChartPoint :=
  if chartType = "pie" then (pieChartData dataRows xColumn).map .pie
  else if chartType = "bar" ∧ jsTruthy yColumn then
    (barChartData dataRows xColumn (yColumn.getD "") aggregateFunction).map .bar
  else if chartType = "line" ∧ jsTruthy yColumn then
    (lineChartData dataRows xColumn (yColumn.getD "")).map .line
  else if chartType = "scatter" ∧ jsTruthy yColumn then
    (scatterChartData dataRows xColumn (yColumn.getD "")).map .scatter
  else (pieChartData dataRows xColumn).map .pie

/-- The point cap of the superseded `route-old.ts` handler:
`if (chartData.length > 100) chartData = chartData.slice(0, 100)`. -/
def capChartData (chartData : List ChartPoint) : List ChartPoint :=
  if 100 < chartData.length then chartData.take 100 else chartData

/-! ## Embedding of `generateChartSuggestions`
(`src/lib/data-analyzer-new.ts`) -/

inductive ChartKind
  | bar
  | line
  | pie
  | scatter
  | area
deriving DecidableEq, Repr

/-- The used fields of the analyzer's `DataColumn`. -/
structure DataColumn where
  name : String
  type : ColType
  uniqueValues : Option ℕ
  nullCount : Option ℕ
deriving DecidableEq, Repr

structure ChartSuggestion where
  type : ChartKind
  title : String
  xColumn : String
  yColumn : Option String
  description : String
  confidence : ℚ
  reasoning : String
deriving DecidableEq, Repr

/-- JS template interpolation of a number-or-undefined field. -/
def jsNumOptToString : Option ℕ → String
  | some n => toString n
  | none => "undefined"

/-- `generateChartSuggestions`: enumerate bar/pie/line/scatter/area
suggestions with fixed confidences, stably sort by descending confidence
and keep the first 6.  The source's `toSorted((a, b) => b.confidence -
a.confidence)` is a stable sort for the total preorder "higher confidence
first"; stable sorts for a fixed preorder agree on every input, so the
(stable) insertion sort below denotes the same function. -/
def generateChartSuggestions (columns : List DataColumn) (rows : List ChartRow) :
    List ChartSuggestion :=
  let numericColumns := columns.filter (fun c => c.type == ColType.number)
  let categoricalColumns := columns.filter (fun c =>
    c.type == ColType.string && decide ((c.uniqueValues.getD 0 : ℚ) < (rows.length : ℚ) * 0.5))
  let dateColumns := columns.filter (fun c => c.type == ColType.date)
  let bars := categoricalColumns.flatMap (fun catCol =>
    numericColumns.flatMap (fun numCol =>
      if catCol.uniqueValues.getD 0 ≤ 20 then
        [{ type := .bar
           title := numCol.name ++ " by " ++ catCol.name
           xColumn := catCol.name
           yColumn := some numCol.name
           description := "Compare " ++ numCol.name ++ " across different " ++
             catCol.name ++ " categories"
           confidence := 0.8
           reasoning := catCol.name ++ " has " ++ jsNumOptToString catCol.uniqueValues ++
             " distinct categories, suitable for comparison with " ++ numCol.name }]
      else []))
  let pies := categoricalColumns.flatMap (fun catCol =>
    if catCol.uniqueValues.getD 0 ≤ 10 ∧ 2 ≤ catCol.uniqueValues.getD 0 then
      [{ type := .pie
         title := "Distribution of " ++ catCol.name
         xColumn := catCol.name
         yColumn := none
         description := "Show the distribution of different " ++ catCol.name ++ " values"
         confidence := 0.7
         reasoning := catCol.name ++ " has " ++ jsNumOptToString catCol.uniqueValues ++
           " categories, ideal for showing proportions" }]
    else [])
  let lineSuggestions := dateColumns.flatMap (fun dateCol =>
    numericColumns.map (fun numCol =>
      { type := .line
        title := numCol.name ++ " over time"
        xColumn := dateCol.name
        yColumn := some numCol.name
        description := "Track how " ++ numCol.name ++ " changes over time"
        confidence := 0.9
        reasoning := "Time series data with " ++ dateCol.name ++ " and numeric " ++ numCol.name }))
  let scatters := numericColumns.enum.flatMap (fun p =>
    (numericColumns.enum.filter (fun q => p.1 < q.1)).map (fun q =>
      { type := .scatter
        title := p.2.name ++ " vs " ++ q.2.name
        xColumn := p.2.name
        yColumn := some q.2.name
        description := "Explore the relationship between " ++ p.2.name ++ " and " ++ q.2.name
        confidence := 0.6
        reasoning := "Both " ++ p.2.name ++ " and " ++ q.2.name ++
          " are numeric, suitable for correlation analysis" }))
  let areas :=
    if !dateColumns.isEmpty ∧ !numericColumns.isEmpty then
      [{ type := .area
         title := "Trends over time"
         xColumn := (dateColumns.headD ⟨"", .string, none, none⟩).name
         yColumn := some (numericColumns.headD ⟨"", .string, none, none⟩).name
         description := "Show trends and patterns over time with filled areas"
         confidence := 0.8
         reasoning := "Area charts work well for showing cumulative trends over time" }]
    else []
  let suggestions := bars ++ pies ++ lineSuggestions ++ scatters ++ areas
  (List.insertionSort (fun a b => b.confidence ≤ a.confidence) suggestions).take 6

/-! ## Embedding of `FileStorage` (`src/unnamed/part_002`) with its
`FileCache` sidecar modelled as the on-disk key-value map -/

/-- The stored-file payload (`StoredFile`). -/
structure StoredFile where
  metadata : String
  columns : List ColumnRec
  rows : List RowRec
  processingLog : List String
deriving DecidableEq, Repr

/-- Combined storage state: the in-memory map and the disk cache. -/
structure FSState where
  mem : List (String × StoredFile)
  cache : List (String × StoredFile)
deriving DecidableEq, Repr

/-- `FileStorage.set`: store in memory and mirror into the cache. -/
def fileStorageSet (st : FSState) (fileId : String) (data : StoredFile) : FSState :=
  { mem := mapSet st.mem fileId data, cache := mapSet st.cache fileId data }

/-- `FileStorage.get`: memory first; on a miss consult the cache and
restore a hit into memory. -/
def fileStorageGet (st : FSState) (fileId : String) : Option StoredFile × FSState :=
  match List.lookup fileId st.mem with
  | some data => (some data, st)
  | none =>
    match List.lookup fileId st.cache with
    | some cachedData => (some cachedData, { st with mem := mapSet st.mem fileId cachedData })
    | none => (none, st)

/-! ## Spec-side definitions (for the refinement-style claims) -/

/-- Written from the claim's wording of the header score: +2 for a cell
containing a domain keyword (case-insensitively), plus +1 for a non-empty,
non-numeric cell shorter than 30 characters. -/
def specCellScore (cell : String) : ℕ :=
  let c := jsTrim (lowerStr cell)
  (if headerKeywords.any (fun k => strContains c k) then 2 else 0) +
    (if c ≠ "" ∧ c.length < 30 ∧ isNumericValue c = false then 1 else 0)

/-- Written from the claim's wording: the total score of a candidate
header row. -/
def specHeaderScore (row : List String) : ℕ :=
  (row.map specCellScore).sum

/-- Written from the claim's wording: one of the next 3 rows contains a
numeric/monetary cell. -/
def specNext3Numeric (rows : List (List String)) (i : ℕ) : Bool :=
  ((rows.drop (i + 1)).take 3).any (fun r => r.any isNumericValue)

/-- The amended qualification of a candidate header row: at least 3 cells,
score at least 3, at least two rows after it, and a numeric cell among the
next 3 rows. -/
def specQualifies (rows : List (List String)) (i : ℕ) : Bool :=
  decide (3 ≤ (rows.getD i []).length) && decide (3 ≤ specHeaderScore (rows.getD i [])) &&
    decide (i + 2 < rows.length) && specNext3Numeric rows i

/-- The first qualifying row among the first 25. -/
def specFirstQualifying (rows : List (List String)) : Option ℕ :=
  (List.range (min 25 rows.length)).find? (specQualifies rows)

/-- The rows of a group: those whose truthy `xColumn` value equals the
group key (for the claim about the bar aggregation). -/
def groupRows (rows : List ChartRow) (x n : String) : List ChartRow :=
  rows.filter (fun r => jsTruthy (jsGet r x) && ((jsGet r x).getD "" == n))

/-- Totality of the "higher confidence first" preorder. -/
instance : IsTotal ChartSuggestion (fun a b => b.confidence ≤ a.confidence) :=
  ⟨fun a b => le_total b.confidence a.confidence⟩

/-- Transitivity of the "higher confidence first" preorder. -/
instance : IsTrans ChartSuggestion (fun a b => b.confidence ≤ a.confidence) :=
  ⟨fun _ _ _ h1 h2 => le_trans h2 h1⟩

/-! ## Concrete inputs for the claims -/

/-- C1: 101 stored rows with distinct `X` values. -/
def c1Rows : List ChartRow :=
  (List.range 101).map (fun i => [("X", some ("v" ++ toString i))])

/-- C2: an empty upload. -/
def c2Req : ProcessReq :=
  { fileId := "file-1", filename := "empty.csv", content := "", mimeType := "text/csv", size := 0 }

/-- C3 counterexample input: no budget keyword, expense keywords present,
qualifying data table. -/
def c3Rows : List (List String) :=
  [["data", "categoria", "valor"], ["x", "y", "10"], ["a", "b", "2"], ["c", "d", "3"]]

/-- C3 witness input: no budget and no expense keywords, qualifying data
table. -/
def c3SimpleRows : List (List String) :=
  [["nome", "idade", "total"], ["ana", "1", "2"], ["bo", "3", "4"]]

/-- C4 counterexample input: the candidate header row scores 9 and the
next row is numeric, but only one row follows it. -/
def c4Rows : List (List String) :=
  [["nome", "data", "valor"], ["1", "2", "3"]]

/-- C6 counterexample input: exactly 80% of the values match the currency
pattern. -/
def c6Vals : List String := ["R$ 1", "R$ 2", "R$ 3", "R$ 4", "abc"]

/-- C7 witness input. -/
def c7Raw : List (List String) := [["a", "b"]]

/-- C8: the spec's fixed columns. -/
def c8Cols : List DataColumn :=
  [{ name := "Region", type := .string, uniqueValues := some 3, nullCount := none },
   { name := "Sales", type := .number, uniqueValues := some 10, nullCount := none }]

/-- C8: ten rows (only their count matters to the suggestion engine). -/
def c8Rows : List ChartRow := List.replicate 10 []

/-- C8: the expected bar suggestion. -/
def c8BarSuggestion : ChartSuggestion :=
  { type := .bar
    title := "Sales by Region"
    xColumn := "Region"
    yColumn := some "Sales"
    description := "Compare Sales across different Region categories"
    confidence := 0.8
    reasoning := "Region has 3 distinct categories, suitable for comparison with Sales" }

/-- C8: the expected pie suggestion. -/
def c8PieSuggestion : ChartSuggestion :=
  { type := .pie
    title := "Distribution of Region"
    xColumn := "Region"
    yColumn := none
    description := "Show the distribution of different Region values"
    confidence := 0.7
    reasoning := "Region has 3 categories, ideal for showing proportions" }

/-- C9: the spec's aggregation rows. -/
def c9Rows : List ChartRow :=
  [[("Region", some "N"), ("Sales", some "10")],
   [("Region", some "N"), ("Sales", some "20")],
   [("Region", some "S"), ("Sales", some "5")]]

/-- C10: a stored payload for the witness. -/
def c10File : StoredFile := { metadata := "m", columns := [], rows := [], processingLog := [] }

/-- C10: another stored payload for the witness. -/
def c10CacheFile : StoredFile := { metadata := "c", columns := [], rows := [], processingLog := [] }

/-- C10: a state whose memory lacks `"b"` but whose cache has it. -/
def c10State : FSState :=
  { mem := [("a", c10File)], cache := [("b", c10CacheFile)] }

/-! ## Helper lemmas -/

theorem length_filter_eq_iff_all {α : Type} (p : α → Bool) (l : List α) :
    (l.filter p).length = l.length ↔ l.all p = true := by
  induction l with
  | nil => simp
  | cons a t ih =>
    rw [List.filter_cons, List.all_cons]
    by_cases h : p a = true
    · rw [if_pos h, h]
      simp [ih]
    · rw [if_neg h]
      have hle := List.length_filter_le p t
      have hpa : p a = false := by
        cases hp : p a
        · rfl
        · exact absurd hp h
      rw [hpa]
      simp only [List.length_cons, Bool.false_and]
      constructor
      · intro hlen
        omega
      · intro hf
        cases hf

theorem find?_ext {α : Type} {p q : α → Bool} (h : ∀ a, p a = q a) (l : List α) :
    l.find? p = l.find? q := by
  induction l with
  | nil => rfl
  | cons a t ih =>
    by_cases ha : p a = true
    · rw [List.find?_cons_of_pos _ ha, List.find?_cons_of_pos _ ((h a) ▸ ha)]
    · rw [List.find?_cons_of_neg _ ha, ih,
        List.find?_cons_of_neg _ (by rw [← h a]; exact ha)]

theorem lookup_mapSet {β : Type} (m : List (String × β)) (k n : String) (v : β) :
    List.lookup n (mapSet m k v) = if n = k then some v else List.lookup n m := by
  induction m with
  | nil =>
    by_cases h : n = k
    · simp [mapSet, List.lookup, h]
    · simp [mapSet, List.lookup, h, beq_false_of_ne h]
  | cons hd t ih =>
    obtain ⟨k0, v0⟩ := hd
    by_cases hk : k0 = k
    · subst hk
      by_cases h : n = k0
      · simp [mapSet, List.lookup, h]
      · simp [mapSet, List.lookup, h, beq_false_of_ne h]
    · by_cases h : n = k0
      · subst h
        have hnk : n ≠ k := hk
        simp [mapSet, hk, List.lookup, hnk]
      · simp [mapSet, hk, List.lookup, beq_false_of_ne h, ih]

/-! ## C5 -/

set_option maxRecDepth 40000 in
/-- C5: the currency normalization does not round-trip the spec's own
test vector.  Normalizing `"R$ 1.234,56"` yields the string `"1.234"`,
whose float value is 1.234, not the cell's numeric value 1234.56 (the
thousands dot survives the strip and `replace(',', '.')` only rewrites
the first comma, so `parseFloat` stops at the second dot). -/
theorem C5_currency_roundtrip_fails :
    cleanCell "R$ 1.234,56" = "1.234" ∧
      jsParseFloat "1.234" = some ((1234 : ℚ) / 1000) ∧
      ((1234 : ℚ) / 1000) ≠ 1234.56 := by
  refine ⟨by with_unfolding_all decide, by with_unfolding_all decide, by norm_num⟩

/-! ## C1 -/

set_option maxRecDepth 100000 in
/-- C1: the live get-chart-data handler applies no 100-point cap: a pie
request over a stored file with 101 distinct `X` values returns all 101
points (the superseded `route-old.ts` capped at 100 via
`capChartData`). -/
theorem C1_no_point_cap :
    (routeChartData "pie" "X" none "sum" c1Rows).length = 101 ∧
      ¬((routeChartData "pie" "X" none "sum" c1Rows).length ≤ 100) := by
  refine ⟨by decide, by decide⟩

/-! ## C2 -/

/-- C2: when parsing the uploaded content yields zero rows, the
process-file handler surfaces the input-empty error and leaves the file
store untouched, so a fileId absent before the call is still absent
after it. -/
theorem C2_input_empty_atomic (d : String → Bool) (now : String) (req : ProcessReq)
    (store : List (String × FileEntry)) (h : parseCSV req.content = []) :
    processFilePost d now req store = (Except.error "No data found in file", store) ∧
      (List.lookup req.fileId store = none →
        List.lookup req.fileId (processFilePost d now req store).2 = none) := by
  have hmain : processFilePost d now req store = (Except.error "No data found in file", store) := by
    unfold processFilePost
    split_ifs <;> simp_all
  exact ⟨hmain, fun habs => by rw [hmain]; exact habs⟩

/-- C2 witness: the empty upload is rejected with the input-empty error
and the (empty) store still reports the fileId absent. -/
theorem C2_input_empty_atomic_witness :
    List.lookup "file-1" (processFilePost jsDateParse "2024-01-01" c2Req []).2 = none :=
  (C2_input_empty_atomic jsDateParse "2024-01-01" c2Req [] (by decide)).2 (by decide)

/-! ## C10 -/

/-- C10: `FileStorage.get` returns the in-memory entry when present; on a
memory miss it returns the cache entry (if any) and restores it into
memory under the same identifier; it returns `none` only when both maps
lack the identifier; and every other identifier's entries are unchanged
(the cache is never written by `get`). -/
theorem C10_get_memory_cache_frame (st : FSState) (fileId : String) :
    (∀ dta, List.lookup fileId st.mem = some dta →
      fileStorageGet st fileId = (some dta, st)) ∧
    (List.lookup fileId st.mem = none →
      ∀ c, List.lookup fileId st.cache = some c →
        (fileStorageGet st fileId).1 = some c ∧
          List.lookup fileId (fileStorageGet st fileId).2.mem = some c ∧
          (fileStorageGet st fileId).2.cache = st.cache) ∧
    (List.lookup fileId st.mem = none → List.lookup fileId st.cache = none →
      fileStorageGet st fileId = (none, st)) ∧
    (∀ k, k ≠ fileId →
      List.lookup k (fileStorageGet st fileId).2.mem = List.lookup k st.mem ∧
        (fileStorageGet st fileId).2.cache = st.cache) := by
  refine ⟨?_, ?_, ?_, ?_⟩
  · intro dta hmem
    unfold fileStorageGet
    rw [hmem]
  · intro hmem c hcache
    unfold fileStorageGet
    rw [hmem, hcache]
    refine ⟨rfl, ?_, rfl⟩
    simp [lookup_mapSet]
  · intro hmem hcache
    unfold fileStorageGet
    rw [hmem, hcache]
  · intro k hk
    unfold fileStorageGet
    cases hmem : List.lookup fileId st.mem with
    | some dta => exact ⟨rfl, rfl⟩
    | none =>
      cases hcache : List.lookup fileId st.cache with
      | some c =>
        refine ⟨?_, rfl⟩
        simp only [lookup_mapSet]
        rw [if_neg hk]
      | none => exact ⟨rfl, rfl⟩

/-- C10 witness: a memory miss on `"b"` is served from the cache, the
entry is restored into memory, and the `"a"` entry is untouched. -/
theorem C10_get_memory_cache_frame_witness :
    (fileStorageGet c10State "b").1 = some c10CacheFile ∧
      List.lookup "b" (fileStorageGet c10State "b").2.mem = some c10CacheFile ∧
      (fileStorageGet c10State "b").2.cache = c10State.cache ∧
      List.lookup "a" (fileStorageGet c10State "b").2.mem = List.lookup "a" c10State.mem := by
  have h := C10_get_memory_cache_frame c10State "b"
  have h2 := h.2.1 (by decide) c10CacheFile (by decide)
  have h4 := (h.2.2.2 "a" (by decide)).1
  exact ⟨h2.1, h2.2.1, h2.2.2, h4⟩

/-! ## C6 -/

/-- C6 counterexample: with values `["R$ 1","R$ 2","R$ 3","R$ 4","abc"]`
exactly 80% (4 of 5 non-empty values) match the currency pattern — so the
claim's "at least 80%" rule classifies the column as number — but the
code requires strictly more than 80% and falls through to string. -/
theorem C6_eighty_percent_boundary :
    (nonEmptyVals c6Vals).length = 5 ∧
      ((nonEmptyVals c6Vals).filter (fun v => currencyMatch (jsTrim v))).length = 4 ∧
      ((4 : ℚ) ≥ (5 : ℚ) * 0.8) ∧
      detectColumnType jsDateParse c6Vals = ColType.string := by
  refine ⟨by decide, by decide, by norm_num, by with_unfolding_all decide⟩

/-- C6 (amended: the currency threshold is strictly more than 80%): the
detector applies its checks in the claimed order with first match
winning — it agrees with the spec-worded `specDetectColumnType` on every
input and oracle — and the four test vectors classify as number, date,
boolean and string. -/
theorem C6_type_inference_order :
    (∀ (d : String → Bool) (values : List String),
      detectColumnType d values = specDetectColumnType d values) ∧
    detectColumnType jsDateParse ["1", "2", "3"] = ColType.number ∧
    detectColumnType jsDateParse ["2024-01-01", "2024-02-01"] = ColType.date ∧
    detectColumnType jsDateParse ["true", "false"] = ColType.boolean ∧
    detectColumnType jsDateParse ["a", "b", "1"] = ColType.string := by
  refine ⟨?_, by with_unfolding_all decide, by with_unfolding_all decide,
    by with_unfolding_all decide, by with_unfolding_all decide⟩
  intro d values
  unfold detectColumnType specDetectColumnType nonEmptyVals
  dsimp only
  have hnum := length_filter_eq_iff_all
    (fun v => jsNumberValid (replaceCurrencyPunct v))
    (values.filter (fun v => v != "" && jsTrim v != ""))
  have hdate := length_filter_eq_iff_all
    (fun v => d v && containsDigit v)
    (values.filter (fun v => v != "" && jsTrim v != ""))
  have hbool := length_filter_eq_iff_all
    boolTokenMatch
    (values.filter (fun v => v != "" && jsTrim v != ""))
  split_ifs <;> first | rfl | tauto

/-! ## C7 -/

theorem extractBudgetRow_has_nonblank {row b : List String}
    (h : extractBudgetRow row = some b) : ∃ c ∈ b, c ≠ "" := by
  unfold extractBudgetRow at h
  dsimp only at h
  split_ifs at h with hlen hvalid hcond
  injection h with h2
  subst h2
  simp only [Bool.and_eq_true, bne_iff_ne, ne_eq] at hcond
  exact ⟨jsTrim (row.headD ""), List.mem_cons_self _ _, hcond.1.1⟩

theorem cleanDataRows_no_blank_row (rows : List (List String)) (n : ℕ) :
    ∀ r ∈ cleanDataRows rows n, ∃ c ∈ r, c ≠ "" := by
  induction rows with
  | nil =>
    intro r hr
    simp [cleanDataRows] at hr
  | cons row rest ih =>
    intro r hr
    by_cases hblank : (row.any (fun c => jsTrim c != "")) = true
    · cases hbr : extractBudgetRow row with
      | some b =>
        unfold cleanDataRows at hr
        simp only [hblank, Bool.not_true, hbr] at hr
        rcases List.mem_cons.mp hr with hb | htail
        · subst hb
          exact extractBudgetRow_has_nonblank hbr
        · exact ih r htail
      | none =>
        unfold cleanDataRows at hr
        simp only [hblank, Bool.not_true, hbr] at hr
        by_cases hany : (((List.range n).map (fun j =>
            let cell := row.getD j ""
            if cell = "" then "" else cleanCell cell)).any (fun c => c != "")) = true
        · simp only [hany, if_true] at hr
          rcases List.mem_cons.mp hr with hb | htail
          · subst hb
            rcases List.any_eq_true.mp hany with ⟨c, hc, hcne⟩
            exact ⟨c, hc, bne_iff_ne.mp hcne⟩
          · exact ih r htail
        · simp only [hany, if_false] at hr
          exact ih r hr
    · unfold cleanDataRows at hr
      simp only [hblank, Bool.not_false] at hr
      exact ih r hr

/-- C7: for every raw table, every row of the extracted table contains at
least one non-empty cell — fully blank rows are dropped by the row
cleaning, whatever the structural classification chose as the data
rows. -/
theorem C7_no_fully_blank_rows (rawRows : List (List String)) (r : List String)
    (hr : r ∈ (processRawTable rawRows).rows) : ∃ c ∈ r, c ≠ "" :=
  cleanDataRows_no_blank_row _ _ r hr

/-- C7 witness: the single extracted row of the two-cell raw table keeps
a non-empty cell. -/
theorem C7_no_fully_blank_rows_witness : ∃ c ∈ (["a", "b", "", ""] : List String), c ≠ "" :=
  C7_no_fully_blank_rows c7Raw ["a", "b", "", ""] (by with_unfolding_all decide)

/-! ## C3 -/

/-- C3 counterexample: a table with no budget keyword on which standalone
data-table detection succeeds, yet the classification is ExpenseReport,
not SimpleTable — the source checks the expense-report analyzer before
the simple-table analyzer, and the expense keywords (here `data`,
`categoria`, `valor`) also occur in ordinary header rows. -/
theorem C3_expense_before_simple_counterexample :
    analyzeBudgetStructure c3Rows = none ∧
      (findDataTable c3Rows).isSome = true ∧
      (analyzeComplexStructure c3Rows).fileType = FileType.expense_report ∧
      (analyzeComplexStructure c3Rows).fileType ≠ FileType.simple_table := by
  refine ⟨by decide, by decide, by decide, by decide⟩

/-- C3 (amended: expense-report detection runs before, and takes priority
over, standalone simple-table classification): for every raw table not
classified BudgetLayout, if data-table detection finds a qualifying
header row the table is classified ExpenseReport when the rows contain a
report/expense/date/category/value keyword and SimpleTable otherwise; if
detection finds none, the complex multi-section fallback applies.  In
particular ExpenseReport occurs only when the keywords are present and
the rerun data-table detection succeeds. -/
theorem C3_classification_priority (rows : List (List String))
    (hb : analyzeBudgetStructure rows = none) :
    (analyzeComplexStructure rows).fileType =
      if (findDataTable rows).isSome then
        (if hasKeywordAnywhere expenseKeywords rows then FileType.expense_report
         else FileType.simple_table)
      else FileType.complex_structure := by
  unfold analyzeComplexStructure
  rw [hb]
  unfold analyzeExpenseReport analyzeSimpleTable
  by_cases hk : hasKeywordAnywhere expenseKeywords rows = true
  · cases hft : findDataTable rows with
    | some t => simp [hft, hk]
    | none => simp [hft, hk, analyzeComplexMultiSection]
  · have hk0 : hasKeywordAnywhere expenseKeywords rows = false := by
      cases h : hasKeywordAnywhere expenseKeywords rows
      · rfl
      · exact absurd h hk
    cases hft : findDataTable rows with
    | some t => simp [hft, hk0]
    | none => simp [hft, hk0, analyzeComplexMultiSection]

/-- C3 witness: a keyword-free table with a qualifying header row is
classified SimpleTable. -/
theorem C3_classification_priority_witness :
    (analyzeComplexStructure c3SimpleRows).fileType = FileType.simple_table := by
  have h := C3_classification_priority c3SimpleRows (by decide)
  rw [h]
  decide

/-! ## C4 -/

theorem scoreStep_eq (s : ℕ) (cell : String) :
    scoreStep s (jsTrim (lowerStr cell)) = s + specCellScore cell := by
  unfold scoreStep specCellScore
  dsimp only
  by_cases hc : jsTrim (lowerStr cell) = ""
  · rw [hc]
    have hkw : (headerKeywords.any fun k => strContains "" k) = false := by decide
    simp [hkw]
  · by_cases hkw : (headerKeywords.any fun k => strContains (jsTrim (lowerStr cell)) k) = true <;>
      by_cases hlen : (jsTrim (lowerStr cell)).length < 30 <;>
      by_cases hnum : isNumericValue (jsTrim (lowerStr cell)) = true <;>
      simp [hc, hkw, hlen, hnum, bne_iff_ne]

theorem foldl_scoreStep_eq (row : List String) (s : ℕ) :
    row.foldl (fun acc cell => scoreStep acc (jsTrim (lowerStr cell))) s =
      s + specHeaderScore row := by
  induction row generalizing s with
  | nil => simp [specHeaderScore]
  | cons a t ih =>
    rw [List.foldl_cons, ih, scoreStep_eq]
    simp only [specHeaderScore, List.map_cons, List.sum_cons]
    omega

theorem isValidHeaderRow_eq (rows : List (List String)) (i : ℕ) :
    isValidHeaderRow (rows.getD i []) i rows =
      (decide (3 ≤ specHeaderScore (rows.getD i [])) && decide (i + 2 < rows.length) &&
        specNext3Numeric rows i) := by
  unfold isValidHeaderRow specNext3Numeric
  dsimp only
  rw [List.foldl_map, foldl_scoreStep_eq]
  by_cases hs : 3 ≤ specHeaderScore (rows.getD i []) <;>
    by_cases hi : i + 2 < rows.length <;>
    simp [hs, hi, Nat.zero_add]

/-- C4 counterexample: in the two-row table
`[["nome","data","valor"], ["1","2","3"]]` the first row scores 9 (three
keyword matches plus three short text cells) and the next row contains
numeric cells, so under the claim's rule it qualifies as the header row;
yet `findDataTable` selects nothing, because the code additionally
requires the candidate not to be among the last two rows. -/
theorem C4_tail_guard_counterexample :
    3 ≤ specHeaderScore (c4Rows.getD 0 []) ∧
      specNext3Numeric c4Rows 0 = true ∧
      findDataTable c4Rows = none := by
  refine ⟨by decide, by decide, by decide⟩

/-- C4 (amended: a candidate row qualifies iff it has at least 3 cells,
its keyword/text score is at least 3, at least two rows follow it, and
one of the next 3 rows contains a numeric/monetary cell): `findDataTable`
selects exactly the first such row among the first 25. -/
theorem C4_header_row_selection (rows : List (List String)) :
    (findDataTable rows).map DTResult.headerRow = specFirstQualifying rows := by
  unfold findDataTable specFirstQualifying
  have hpt : ∀ i, (decide (3 ≤ (rows.getD i []).length) &&
      isValidHeaderRow (rows.getD i []) i rows) = specQualifies rows i := by
    intro i
    rw [isValidHeaderRow_eq]
    unfold specQualifies
    cases decide (3 ≤ (rows.getD i []).length) <;>
      cases decide (3 ≤ specHeaderScore (rows.getD i [])) <;>
      cases decide (i + 2 < rows.length) <;>
      cases specNext3Numeric rows i <;> rfl
  rw [find?_ext hpt (List.range (min 25 rows.length))]
  cases hf : List.find? (specQualifies rows) (List.range (min 25 rows.length)) <;> simp [hf]

/-! ## C8 -/

/-- C8: the suggestion engine returns at most 6 suggestions in
non-increasing confidence order (the underlying sort is stable, so ties
keep first-generated order), and on the spec's fixed input — Region
(string, 3 distinct values) and Sales (number) over 10 rows — it returns
exactly the 0.8-confidence bar followed by the 0.7-confidence pie. -/
theorem C8_suggestion_ranking :
    (∀ (columns : List DataColumn) (rows : List ChartRow),
      (generateChartSuggestions columns rows).length ≤ 6 ∧
        (generateChartSuggestions columns rows).Pairwise
          (fun a b => b.confidence ≤ a.confidence)) ∧
    generateChartSuggestions c8Cols c8Rows = [c8BarSuggestion, c8PieSuggestion] := by
  constructor
  · intro columns rows
    constructor
    · unfold generateChartSuggestions
      dsimp only
      rw [List.length_take]
      exact min_le_left _ _
    · unfold generateChartSuggestions
      dsimp only
      exact List.Pairwise.sublist (List.take_sublist _ _)
        (List.sorted_insertionSort (fun a b : ChartSuggestion => b.confidence ≤ a.confidence) _)
  · with_unfolding_all decide

/-! ## C9 -/

theorem lookup_pushGroup (gs : List (String × List ℚ)) (k n : String) (v : ℚ) :
    List.lookup n (pushGroup gs k v) =
      if n = k then some (((List.lookup n gs).getD []) ++ [v]) else List.lookup n gs := by
  induction gs with
  | nil =>
    by_cases h : n = k
    · subst h
      simp [pushGroup, List.lookup]
    · simp [pushGroup, List.lookup, h, beq_false_of_ne h]
  | cons hd t ih =>
    obtain ⟨k0, l0⟩ := hd
    by_cases hk : k0 = k
    · subst hk
      by_cases h : n = k0
      · subst h
        simp [pushGroup, List.lookup]
      · simp [pushGroup, List.lookup, h, beq_false_of_ne h]
    · by_cases h : n = k0
      · subst h
        have hnk : n ≠ k := hk
        simp [pushGroup, hk, List.lookup, hnk]
      · simp [pushGroup, hk, List.lookup, beq_false_of_ne h, ih]

theorem lookup_none_not_mem {β : Type} (gs : List (String × β)) (k : String)
    (h : List.lookup k gs = none) : k ∉ gs.map Prod.fst := by
  induction gs with
  | nil => simp
  | cons hd t ih =>
    obtain ⟨k0, v0⟩ := hd
    by_cases hk : k = k0
    · subst hk
      simp [List.lookup] at h
    · simp only [List.map_cons, List.mem_cons]
      rintro (h1 | h2)
      · exact hk h1
      · exact ih (by simpa [List.lookup, beq_false_of_ne hk] using h) h2

theorem keys_pushGroup (gs : List (String × List ℚ)) (k : String) (v : ℚ) :
    (pushGroup gs k v).map Prod.fst = gs.map Prod.fst ∨
      ((pushGroup gs k v).map Prod.fst = gs.map Prod.fst ++ [k] ∧
        List.lookup k gs = none) := by
  induction gs with
  | nil =>
    right
    simp [pushGroup, List.lookup]
  | cons hd t ih =>
    obtain ⟨k0, l0⟩ := hd
    by_cases hk : k0 = k
    · left
      subst hk
      simp [pushGroup]
    · rcases ih with ih1 | ⟨ih2a, ih2b⟩
      · left
        simp [pushGroup, hk, ih1]
      · right
        refine ⟨by simp [pushGroup, hk, ih2a], ?_⟩
        have hkk : k ≠ k0 := fun he => hk he.symm
        simp [List.lookup, beq_false_of_ne hkk, ih2b]

theorem nodup_keys_pushGroup (gs : List (String × List ℚ)) (k : String) (v : ℚ)
    (h : (gs.map Prod.fst).Nodup) : ((pushGroup gs k v).map Prod.fst).Nodup := by
  rcases keys_pushGroup gs k v with h1 | ⟨h2, h3⟩
  · rw [h1]
    exact h
  · rw [h2]
    have hk := lookup_none_not_mem gs k h3
    simp [List.nodup_append, h, hk]

theorem mem_lookup_of_nodup {β : Type} (gs : List (String × β)) (p : String × β)
    (hn : (gs.map Prod.fst).Nodup) (hp : p ∈ gs) : List.lookup p.1 gs = some p.2 := by
  induction gs with
  | nil => cases hp
  | cons hd t ih =>
    rw [List.map_cons, List.nodup_cons] at hn
    rcases List.mem_cons.mp hp with rfl | hp2
    · simp [List.lookup]
    · have hne : p.1 ≠ hd.1 := fun he => hn.1 (he ▸ List.mem_map.mpr ⟨p, hp2, rfl⟩)
      simp [List.lookup, beq_false_of_ne hne, ih hn.2 hp2]

theorem barStep_apply (x y : String) (acc : List (String × List ℚ)) (r : ChartRow) :
    barStep x y acc r =
      if jsTruthy (jsGet r x) = true then
        pushGroup acc ((jsGet r x).getD "") (parsedNum (jsGet r y))
      else acc := rfl

theorem nodup_keys_barGroups_aux (x y : String) (rows : List ChartRow) :
    ∀ acc : List (String × List ℚ), (acc.map Prod.fst).Nodup →
      ((rows.foldl (barStep x y) acc).map Prod.fst).Nodup := by
  induction rows with
  | nil =>
    intro acc h
    exact h
  | cons r rest ih =>
    intro acc h
    rw [List.foldl_cons]
    apply ih
    unfold barStep
    dsimp only
    by_cases ht : jsTruthy (jsGet r x) = true
    · rw [if_pos ht]
      exact nodup_keys_pushGroup _ _ _ h
    · rw [if_neg ht]
      exact h

theorem foldl_barStep_lookup_some (x y : String) (rows : List ChartRow) :
    ∀ (acc : List (String × List ℚ)) (n : String) (l : List ℚ),
      List.lookup n acc = some l →
      List.lookup n (rows.foldl (barStep x y) acc) =
        some (l ++ (groupRows rows x n).map (fun r => parsedNum (jsGet r y))) := by
  induction rows with
  | nil =>
    intro acc n l hacc
    simp [groupRows, hacc]
  | cons r rest ih =>
    intro acc n l hacc
    rw [List.foldl_cons, barStep_apply]
    by_cases ht : jsTruthy (jsGet r x) = true
    · rw [if_pos ht]
      by_cases hnk : n = (jsGet r x).getD ""
      · have hstep : List.lookup n (pushGroup acc ((jsGet r x).getD "")
            (parsedNum (jsGet r y))) = some (l ++ [parsedNum (jsGet r y)]) := by
          rw [lookup_pushGroup, if_pos hnk, hacc]
          rfl
        rw [ih _ n _ hstep]
        have hpred : (jsTruthy (jsGet r x) && ((jsGet r x).getD "" == n)) = true := by
          rw [ht]
          simp [hnk]
        unfold groupRows
        simp [List.filter_cons, hpred]
      · have hstep : List.lookup n (pushGroup acc ((jsGet r x).getD "")
            (parsedNum (jsGet r y))) = some l := by
          rw [lookup_pushGroup, if_neg hnk, hacc]
        rw [ih _ n _ hstep]
        have hpred : (jsTruthy (jsGet r x) && ((jsGet r x).getD "" == n)) = false := by
          simp [beq_false_of_ne (Ne.symm hnk)]
        unfold groupRows
        simp [List.filter_cons, hpred]
    · rw [if_neg ht]
      rw [ih _ n _ hacc]
      have ht0 : jsTruthy (jsGet r x) = false := by
        cases h0 : jsTruthy (jsGet r x)
        · rfl
        · exact absurd h0 ht
      unfold groupRows
      simp [List.filter_cons, ht0]

theorem foldl_barStep_lookup_none (x y : String) (rows : List ChartRow) :
    ∀ (acc : List (String × List ℚ)) (n : String),
      List.lookup n acc = none →
      List.lookup n (rows.foldl (barStep x y) acc) =
        (if ((groupRows rows x n).map (fun r => parsedNum (jsGet r y))).isEmpty then none
         else some ((groupRows rows x n).map (fun r => parsedNum (jsGet r y)))) := by
  induction rows with
  | nil =>
    intro acc n hacc
    simp [groupRows, hacc]
  | cons r rest ih =>
    intro acc n hacc
    rw [List.foldl_cons, barStep_apply]
    by_cases ht : jsTruthy (jsGet r x) = true
    · rw [if_pos ht]
      by_cases hnk : n = (jsGet r x).getD ""
      · have hstep : List.lookup n (pushGroup acc ((jsGet r x).getD "")
            (parsedNum (jsGet r y))) = some ([parsedNum (jsGet r y)]) := by
          rw [lookup_pushGroup, if_pos hnk, hacc]
          rfl
        rw [foldl_barStep_lookup_some x y rest _ n _ hstep]
        have hpred : (jsTruthy (jsGet r x) && ((jsGet r x).getD "" == n)) = true := by
          rw [ht]
          simp [hnk]
        unfold groupRows
        simp [List.filter_cons, hpred]
      · have hstep : List.lookup n (pushGroup acc ((jsGet r x).getD "")
            (parsedNum (jsGet r y))) = none := by
          rw [lookup_pushGroup, if_neg hnk, hacc]
        rw [ih _ n hstep]
        have hpred : (jsTruthy (jsGet r x) && ((jsGet r x).getD "" == n)) = false := by
          simp [beq_false_of_ne (Ne.symm hnk)]
        unfold groupRows
        simp [List.filter_cons, hpred]
    · rw [if_neg ht]
      rw [ih _ n hacc]
      have ht0 : jsTruthy (jsGet r x) = false := by
        cases h0 : jsTruthy (jsGet r x)
        · rfl
        · exact absurd h0 ht
      unfold groupRows
      simp [List.filter_cons, ht0]

/-- C9: every point emitted by the bar branch carries the aggregate —
sum, mean or group size — of the float-parsed `yColumn` values of exactly
the rows whose truthy `xColumn` value equals the point's name, duplicated
under the `[yColumn]` key; and on the spec's three-row input the three
aggregate functions produce N→30/S→5, N→15/S→5 and N→2/S→1. -/
theorem C9_bar_aggregation :
    (∀ (rows : List ChartRow) (x y agg : String) (p : BarPoint),
      p ∈ barChartData rows x y agg →
        p.value = aggValue agg ((groupRows rows x p.name).map (fun r => parsedNum (jsGet r y))) ∧
          p.yval = p.value ∧ p.ycolName = y) ∧
    barChartData c9Rows "Region" "Sales" "sum" =
      [⟨"N", 30, "Sales", 30⟩, ⟨"S", 5, "Sales", 5⟩] ∧
    barChartData c9Rows "Region" "Sales" "avg" =
      [⟨"N", 15, "Sales", 15⟩, ⟨"S", 5, "Sales", 5⟩] ∧
    barChartData c9Rows "Region" "Sales" "count" =
      [⟨"N", 2, "Sales", 2⟩, ⟨"S", 1, "Sales", 1⟩] := by
  refine ⟨?_, by with_unfolding_all decide, by with_unfolding_all decide,
    by with_unfolding_all decide⟩
  intro rows x y agg p hp
  unfold barChartData at hp
  rcases List.mem_map.mp hp with ⟨entry, hent, hpe⟩
  have hnod := nodup_keys_barGroups_aux x y rows [] (by simp)
  have hlk := mem_lookup_of_nodup _ entry hnod hent
  have hinv := foldl_barStep_lookup_none x y rows [] entry.1 (by simp [List.lookup])
  rw [hlk] at hinv
  by_cases hc : ((groupRows rows x entry.1).map (fun r => parsedNum (jsGet r y))).isEmpty = true
  · rw [if_pos hc] at hinv
    cases hinv
  · rw [if_neg hc] at hinv
    injection hinv with hval
    subst hpe
    dsimp only
    rw [hval]
    exact ⟨rfl, rfl, rfl⟩

/-- C9 witness: the N-group point of the sum aggregation carries the
aggregate of its group's parsed values. -/
theorem C9_bar_aggregation_witness :
    (⟨"N", 30, "Sales", 30⟩ : BarPoint).value =
      aggValue "sum" ((groupRows c9Rows "Region" (⟨"N", 30, "Sales", 30⟩ : BarPoint).name).map
        (fun r => parsedNum (jsGet r "Sales"))) :=
  (C9_bar_aggregation.1 c9Rows "Region" "Sales" "sum" ⟨"N", 30, "Sales", 30⟩
    (by with_unfolding_all decide)).1

end DataViz
